import Mathlib

/-!
Shallow embedding of the soteria circuit breaker (soteria.go) and proofs
about its specification claims.

Conventions of the embedding:
* Go `uint32` counters are `Nat` reduced modulo `W = 2^32` wherever the code
  increments them (`atomic.AddUint32` wraps); `uint64` generation uses `W64`.
* `time.Time` is modelled as `Nat`: `0` is the zero value (`IsZero`), and
  `t.Before(u)` is `t < u`.  `time.Duration` is a `Nat` as well.
* Each Go method that reads `time.Now()` takes the current time `now : Nat`
  as an explicit argument.
* The guarded operation `req func() (interface, error)` is modelled by its
  outcome alone: a `Bool` that is `true` when the operation returned no error.
-/

namespace soteria

/-- Modulus of Go's `uint32` arithmetic. -/
def W : Nat := 4294967296

/-- Modulus of Go's `uint64` arithmetic (the `generation` counter). -/
def W64 : Nat := 18446744073709551616

/-- Stats block, soteria.go lines 31-37 (all fields `uint32`). -/
structure Stats where
  Requests : Nat
  TotalSuccesses : Nat
  TotalFailures : Nat
  ConsecutiveSuccesses : Nat
  ConsecutiveFailures : Nat
deriving Repr, DecidableEq

/-- `Stats.request`, soteria.go lines 39-41: increment `Requests` (wrapping). -/
def Stats.request (c : Stats) : Stats :=
  { c with Requests := (c.Requests + 1) % W }

/-- `Stats.success`, soteria.go lines 43-48: increment `TotalSuccesses` and
`ConsecutiveSuccesses`; `AddUint32(&cf, -cf)` zeroes `ConsecutiveFailures`. -/
def Stats.success (c : Stats) : Stats :=
  { c with TotalSuccesses := (c.TotalSuccesses + 1) % W,
           ConsecutiveSuccesses := (c.ConsecutiveSuccesses + 1) % W,
           ConsecutiveFailures := 0 }

/-- `Stats.failure`, soteria.go lines 50-54. -/
def Stats.failure (c : Stats) : Stats :=
  { c with TotalFailures := (c.TotalFailures + 1) % W,
           ConsecutiveFailures := (c.ConsecutiveFailures + 1) % W,
           ConsecutiveSuccesses := 0 }

/-- `Stats.clear`, soteria.go lines 56-62: `AddUint32(&x, -x)` zeroes every
field. -/
def Stats.clear (_ : Stats) : Stats := ⟨0, 0, 0, 0, 0⟩

/-- The persephone FSM state space with the three constants declared in
soteria.go lines 11-15. -/
inductive PState where
  | StateClosed
  | StateHalfOpen
  | StateOpen
deriving Repr, DecidableEq

open PState

/-- The FSM input space, soteria.go lines 17-20. -/
inductive Input where
  | Ok
  | NotOk
deriving Repr, DecidableEq

/-- Errors of the breaker: `ErrOpenState` and `ErrTooManyRequests` are
declared in soteria.go lines 24-26; `InvalidTransitionError` is the
persephone error for a (state, input) pair that has no registered rule
(spec section 7). -/
inductive Err where
  | ErrOpenState
  | ErrTooManyRequests
  | InvalidTransitionError
deriving Repr, DecidableEq

/-- Result of one `Execute` call.  `rejected e` means the guarded operation
was NOT invoked and the breaker returned `e`; `done opOk procErr` means the
operation WAS invoked, returned with outcome `opOk`, and the subsequent
`Process` call returned `procErr`. -/
inductive ExecResult where
  | rejected (e : Err)
  | done (opOk : Bool) (procErr : Option Err)
deriving Repr, DecidableEq

/-- `Settings`, soteria.go lines 84-90.  A nil `ReadyToTrip` is `none`. -/
structure Settings where
  Name : String
  MaxRequests : Nat
  Interval : Nat
  Timeout : Nat
  ReadyToTrip : Option (Stats → Bool)

/-- `CircuitBreaker`, soteria.go lines 92-104.  The embedded
`persephone.AbstractFSM` is represented by its current state alone (the
rule table added in `init` is fixed and encoded in `Process` below); the
mutex is treated separately in the lock-discipline model at the end of the
file. -/
structure CircuitBreaker where
  name : String
  maxRequests : Nat
  interval : Nat
  timeout : Nat
  readyToTrip : Stats → Bool
  generation : Nat
  stats : Stats
  expiry : Nat
  state : PState

/-- `defaultReadyToTrip`, soteria.go lines 148-150. -/
def defaultReadyToTrip (stats : Stats) : Bool :=
  5 < stats.ConsecutiveFailures

/-- `defaultTimeout`, soteria.go line 22: 60 seconds in nanoseconds. -/
def defaultTimeout : Nat := 60000000000

/-- The new `expiry` computed by the switch in `generate`,
soteria.go lines 265-277, as a function of the (unchanged) current state. -/
def genExpiry (cb : CircuitBreaker) (now : Nat) : Nat :=
  if cb.state = StateClosed then
    (if cb.interval = 0 then 0 else now + cb.interval)
  else if cb.state = StateOpen then
    now + cb.timeout
  else 0

/-- `generate`, soteria.go lines 261-278: bump the generation, clear the
stats and recompute `expiry`.  Note it never changes the FSM state. -/
def generate (cb : CircuitBreaker) (now : Nat) : CircuitBreaker :=
  { cb with generation := (cb.generation + 1) % W64,
            stats := cb.stats.clear,
            expiry := genExpiry cb now }

/-- `currentState`, soteria.go lines 248-259: the lazy refresh step.
The switch has cases only for `StateClosed` and `StateOpen`; a Half-Open
breaker is untouched.  `cb.expiry.Before(now)` is the strict `expiry < now`,
and `!cb.expiry.IsZero()` is `expiry` not being the zero time. -/
def currentState (cb : CircuitBreaker) (now : Nat) : CircuitBreaker :=
  if cb.state = StateClosed then
    (if cb.expiry ≠ 0 ∧ cb.expiry < now then generate cb now else cb)
  else if cb.state = StateOpen then
    (if cb.expiry < now then generate cb now else cb)
  else cb

/-- `persephone.AbstractFSM.GetState`: read the current FSM state. -/
def GetState (cb : CircuitBreaker) : PState := cb.state

/-- `ClosedOkAction`, soteria.go lines 211-216. -/
def ClosedOkAction (cb : CircuitBreaker) : CircuitBreaker :=
  { cb with stats := cb.stats.success }

/-- `HalfOpenOkAction`, soteria.go lines 218-227. -/
def HalfOpenOkAction (cb : CircuitBreaker) (now : Nat) : CircuitBreaker :=
  let cb := { cb with stats := cb.stats.success }
  if cb.maxRequests ≤ cb.stats.ConsecutiveSuccesses then generate cb now else cb

/-- `ClosedNotOkAction`, soteria.go lines 229-238. -/
def ClosedNotOkAction (cb : CircuitBreaker) (now : Nat) : CircuitBreaker :=
  let cb := { cb with stats := cb.stats.failure }
  if cb.readyToTrip cb.stats then generate cb now else cb

/-- `HalfOpenNotOkAction`, soteria.go lines 240-246. -/
def HalfOpenNotOkAction (cb : CircuitBreaker) (now : Nat) : CircuitBreaker :=
  generate cb now

/-- Modelled from the spec: `persephone.AbstractFSM.Process` belongs to the
external FSM library (github.com/jtejido/persephone), which is not part of
this repository.  Per the spec's transition table (section 4.1) and error
taxonomy (section 7), `Process(input)` looks up the rule registered in
`init` (soteria.go lines 152-161) for the current (state, input) pair,
moves the FSM to that rule's destination state, and then runs the rule's
input action; the destination is in force while the action runs, which is
what makes the actions' `generate` calls compute the expiry of the
destination state as the spec's table describes.  A pair with no rule
(only (Open, Ok) here) yields `InvalidTransitionError` and no change.
The five branches below are the five `AddRule` lines in source order. -/
def Process (cb : CircuitBreaker) (i : Input) (now : Nat) :
    CircuitBreaker × Option Err :=
  if cb.state = StateClosed ∧ i = Input.NotOk then
    (ClosedNotOkAction { cb with state := StateOpen } now, none)
  else if cb.state = StateClosed ∧ i = Input.Ok then
    (ClosedOkAction { cb with state := StateClosed }, none)
  else if cb.state = StateOpen ∧ i = Input.NotOk then
    ({ cb with state := StateOpen }, none)
  else if cb.state = StateHalfOpen ∧ i = Input.Ok then
    (HalfOpenOkAction { cb with state := StateClosed } now, none)
  else if cb.state = StateHalfOpen ∧ i = Input.NotOk then
    (HalfOpenNotOkAction { cb with state := StateOpen } now, none)
  else (cb, some Err.InvalidTransitionError)

/-- `Execute`, soteria.go lines 176-209.  `opOk` is the outcome of the
guarded operation `req` (true when `err == nil`); the operation runs only
on the `done` path.  The call refreshes state, applies the two admission
checks, records the request, invokes the operation and feeds the outcome
to `Process`. -/
def Execute (cb : CircuitBreaker) (now : Nat) (opOk : Bool) :
    CircuitBreaker × ExecResult :=
  let cb1 := currentState cb now
  if GetState cb1 = StateOpen then
    (cb1, ExecResult.rejected Err.ErrOpenState)
  else if GetState cb1 = StateHalfOpen ∧ cb1.maxRequests ≤ cb1.stats.Requests then
    (cb1, ExecResult.rejected Err.ErrTooManyRequests)
  else
    let cb2 := { cb1 with stats := cb1.stats.request }
    let p := Process cb2 (if opOk then Input.Ok else Input.NotOk) now
    (p.1, ExecResult.done opOk p.2)

/-- `State`, soteria.go lines 167-174: refresh and return the state (the
refresh mutates the breaker, so the model returns both). -/
def State (cb : CircuitBreaker) (now : Nat) : CircuitBreaker × PState :=
  let cb := currentState cb now
  (cb, GetState cb)

/-- `New`, soteria.go lines 106-146: build the breaker with the documented
defaults and run `generate` once at construction time (state is the FSM's
initial state `StateClosed`; all counters start at Go's zero values). -/
def New (settings : Settings) (now : Nat) : CircuitBreaker :=
  let cb : CircuitBreaker :=
    { name := settings.Name
      maxRequests := if settings.MaxRequests = 0 then 1 else settings.MaxRequests
      interval := settings.Interval
      timeout := if settings.Timeout = 0 then defaultTimeout else settings.Timeout
      readyToTrip :=
        match settings.ReadyToTrip with
        | none => defaultReadyToTrip
        | some f => f
      generation := 0
      stats := ⟨0, 0, 0, 0, 0⟩
      expiry := 0
      state := StateClosed }
  generate cb now

/-- One public call on the breaker: an `Execute` with the operation's
outcome, or a `State` read; each carries the wall-clock time at which it
runs. -/
inductive Call where
  | exec (now : Nat) (opOk : Bool)
  | state (now : Nat)

/-- The breaker after handling one public call. -/
def runCall (cb : CircuitBreaker) (c : Call) : CircuitBreaker :=
  match c with
  | Call.exec now opOk => (Execute cb now opOk).1
  | Call.state now => (State cb now).1

/-- The breaker after a sequence of public calls. -/
def run (cb : CircuitBreaker) (calls : List Call) : CircuitBreaker :=
  calls.foldl runCall cb

/-- A breaker state is reachable when some construction followed by some
sequence of public calls produces it. -/
def Reachable (cb : CircuitBreaker) : Prop :=
  ∃ settings t calls, cb = run (New settings t) calls

/-!
Lock-discipline model for the concurrency claim.  Each public operation is
abstracted, in program order, to the sequence of `cb.mutex` operations,
accesses to the shared fields (state, stats, expiry, generation) and guarded
operation invocations that its source text performs.
-/

/-- One event of a public operation: a `cb.mutex` lock or unlock, an access
(read or write) to the shared fields state/stats/expiry/generation, or an
invocation of the guarded operation. -/
inductive MemEvent where
  | lock
  | unlock
  | sharedAccess
  | runOp
deriving Repr, DecidableEq

/-- The events of `Execute` (soteria.go lines 176-209) on the path where the
call is admitted from the Closed state and the operation succeeds.  The
method body takes no lock of its own; only the transition action called via
`Process` (here `ClosedOkAction`, lines 211-216) locks `cb.mutex`. -/
def executeEvents : List MemEvent :=
  [MemEvent.sharedAccess,  -- line 179: currentState(now) reads state/expiry, may write stats/expiry/generation
   MemEvent.sharedAccess,  -- line 181: GetState()
   MemEvent.sharedAccess,  -- line 185: GetState() and cb.stats.Requests
   MemEvent.sharedAccess,  -- line 189: cb.stats.request() writes cb.stats
   MemEvent.runOp,         -- line 191: result, err := req()
   MemEvent.sharedAccess,  -- line 202: Process(Ok) moves the FSM state
   MemEvent.lock,          -- line 212: ClosedOkAction locks cb.mutex
   MemEvent.sharedAccess,  -- line 214: cb.stats.success()
   MemEvent.unlock]        -- line 213: deferred cb.mutex.Unlock()

/-- The events of `State` (soteria.go lines 167-174): it locks before the
refresh and the state read. -/
def stateEvents : List MemEvent :=
  [MemEvent.lock,          -- line 168: cb.mutex.Lock()
   MemEvent.sharedAccess,  -- line 172: currentState(now)
   MemEvent.sharedAccess,  -- line 173: GetState()
   MemEvent.unlock]        -- line 169: deferred cb.mutex.Unlock()

/-- Given the current lock depth, check that every shared-field access in
the event list happens while the lock is held. -/
def accessesLocked : Nat → List MemEvent → Bool
  | _, [] => true
  | d, MemEvent.lock :: es => accessesLocked (d + 1) es
  | d, MemEvent.unlock :: es => accessesLocked (d - 1) es
  | d, MemEvent.sharedAccess :: es => decide (0 < d) && accessesLocked d es
  | d, MemEvent.runOp :: es => accessesLocked d es

/-- Given the current lock depth, check that every guarded-operation
invocation in the event list happens while the lock is NOT held. -/
def opOutsideLock : Nat → List MemEvent → Bool
  | _, [] => true
  | d, MemEvent.lock :: es => opOutsideLock (d + 1) es
  | d, MemEvent.unlock :: es => opOutsideLock (d - 1) es
  | d, MemEvent.sharedAccess :: es => opOutsideLock d es
  | d, MemEvent.runOp :: es => decide (d = 0) && opOutsideLock d es

/-!
Shared sample configurations used by concrete witnesses and
counterexamples below.
-/

/-- A settings value whose ReadyToTrip fires on every failure: MaxRequests
defaults to 1, Interval 0, Timeout 4. -/
def sampleTripSettings : Settings := ⟨"b", 0, 0, 4, some (fun _ => true)⟩

/-- The breaker built from `sampleTripSettings` at time 0 after one failed
call at time 1: it has tripped, with expiry 1 + 4 = 5. -/
def sampleOpenBreaker : CircuitBreaker :=
  run (New sampleTripSettings 0) [Call.exec 1 false]

/-- A breaker sitting in the Half-Open state with MaxRequests 2 and a fresh
generation (Half-Open is not reachable through the public interface of this
code, so claims about it are checked on directly constructed states). -/
def sampleHalfOpenBreaker : CircuitBreaker :=
  ⟨"b", 2, 0, 4, defaultReadyToTrip, 1, ⟨0, 0, 0, 0, 0⟩, 0, PState.StateHalfOpen⟩

/-- A reachable Closed breaker with Interval 3: built at time 2 (so expiry
is 2 + 3 = 5) and given one successful call at time 4, leaving non-zero
counters in the window. -/
def sampleClosedIntervalBreaker : CircuitBreaker :=
  run (New ⟨"b", 0, 3, 0, none⟩ 2) [Call.exec 4 true]

/-- Inductive invariant on the Stats counters: all fields are genuine
`uint32` values, `Requests` equals `TotalSuccesses + TotalFailures` modulo
`2^32`, and at most one of the consecutive counters is non-zero. -/
def StatsInv (s : Stats) : Prop :=
  s.Requests < W ∧ s.TotalSuccesses < W ∧ s.TotalFailures < W ∧
  s.ConsecutiveSuccesses < W ∧ s.ConsecutiveFailures < W ∧
  s.Requests = (s.TotalSuccesses + s.TotalFailures) % W ∧
  (s.ConsecutiveSuccesses = 0 ∨ s.ConsecutiveFailures = 0)

/-- Inductive invariant for the Closed-interval behaviour: no reachable
breaker is ever Half-Open (nothing maps into that state), and a Closed
breaker with interval 0 always has the zero expiry. -/
def ClosedExpiryInv (cb : CircuitBreaker) : Prop :=
  cb.state ≠ StateHalfOpen ∧
  (cb.interval = 0 → cb.state = StateClosed → cb.expiry = 0)

/-!
Basic lemmas about the embedding.
-/

theorem generate_state (cb : CircuitBreaker) (now : Nat) :
    (generate cb now).state = cb.state := rfl

theorem generate_stats (cb : CircuitBreaker) (now : Nat) :
    (generate cb now).stats = ⟨0, 0, 0, 0, 0⟩ := rfl

theorem currentState_state (cb : CircuitBreaker) (now : Nat) :
    (currentState cb now).state = cb.state := by
  unfold currentState
  split
  · split
    · rfl
    · rfl
  · split
    · split
      · rfl
      · rfl
    · rfl

theorem currentState_halfOpen (cb : CircuitBreaker) (now : Nat)
    (h : cb.state = StateHalfOpen) : currentState cb now = cb := by
  unfold currentState
  simp [h]

/-!
Claim theorems.
-/

/-- Claim C3: for every call to Execute while the breaker's state is Open
and the current time has not reached expiry, Execute returns ErrOpenState,
the guarded operation is not invoked (`rejected` result), and the breaker
is left completely unchanged. -/
theorem C3_open_rejects_before_expiry (cb : CircuitBreaker) (now : Nat) (opOk : Bool)
    (h1 : cb.state = StateOpen) (h2 : now < cb.expiry) :
    Execute cb now opOk = (cb, ExecResult.rejected Err.ErrOpenState) := by
  have h3 : ¬ cb.expiry < now := by omega
  have hcs : currentState cb now = cb := by
    unfold currentState
    simp [h1, h3]
  unfold Execute GetState
  simp [hcs, h1]

/-- Witness for C3 at a reachable Open breaker (expiry 5) queried at time 3. -/
theorem C3_witness :
    Execute sampleOpenBreaker 3 true =
      (sampleOpenBreaker, ExecResult.rejected Err.ErrOpenState) :=
  C3_open_rejects_before_expiry sampleOpenBreaker 3 true (by decide) (by decide)

/-- Claim C4: while the breaker is Half-Open, every Execute call arriving
when stats.Requests is already at least maxRequests returns
ErrTooManyRequests, leaves the breaker unchanged, and does not invoke the
guarded operation. -/
theorem C4_halfOpen_quota (cb : CircuitBreaker) (now : Nat) (opOk : Bool)
    (h1 : cb.state = StateHalfOpen) (h2 : cb.maxRequests ≤ cb.stats.Requests) :
    Execute cb now opOk = (cb, ExecResult.rejected Err.ErrTooManyRequests) := by
  have hcs : currentState cb now = cb := currentState_halfOpen cb now h1
  unfold Execute GetState
  simp [hcs, h1, h2]

/-- Witness for C4: a Half-Open breaker with MaxRequests 2 and 2 requests
already recorded rejects the next call. -/
theorem C4_witness :
    Execute ⟨"b", 2, 0, 4, defaultReadyToTrip, 1, ⟨2, 1, 1, 0, 1⟩, 0, PState.StateHalfOpen⟩ 9 true =
      (⟨"b", 2, 0, 4, defaultReadyToTrip, 1, ⟨2, 1, 1, 0, 1⟩, 0, PState.StateHalfOpen⟩,
       ExecResult.rejected Err.ErrTooManyRequests) :=
  C4_halfOpen_quota _ 9 true (by decide) (by decide)

theorem runCall_open (cb : CircuitBreaker) (c : Call) (h : cb.state = StateOpen) :
    (runCall cb c).state = StateOpen := by
  cases c with
  | exec now opOk =>
      have hst : (currentState cb now).state = StateOpen := by
        rw [currentState_state, h]
      unfold runCall Execute GetState
      simp [hst]
  | state now =>
      unfold runCall State
      rw [currentState_state, h]

/-- Claim C10: once the breaker's state is Open, no subsequent sequence of
Execute or State calls, at any wall-clock times, ever changes the state:
the refresh step's `generate` never alters the FSM state, and admission
rejects every Open-state call before it can feed the state machine. -/
theorem C10_open_absorbing (cb : CircuitBreaker) (calls : List Call)
    (h : cb.state = StateOpen) : (run cb calls).state = StateOpen := by
  induction calls generalizing cb with
  | nil => exact h
  | cons c cs ih =>
      show (run (runCall cb c) cs).state = StateOpen
      exact ih _ (runCall_open cb c h)

/-- Witness for C10: an Open breaker stays Open across later Execute and
State calls at arbitrary times, including times far past its expiry. -/
theorem C10_witness :
    (run sampleOpenBreaker
      [Call.exec 7 true, Call.state 100, Call.exec 999 true]).state = StateOpen :=
  C10_open_absorbing sampleOpenBreaker _ (by decide)

/-- Claim C6: every failure recorded while the breaker is Half-Open moves
the state to Open, starts a new generation with zeroed stats, and sets the
new expiry to the current time plus the configured timeout. -/
theorem C6_halfOpen_failure (cb : CircuitBreaker) (now : Nat)
    (h1 : cb.state = StateHalfOpen) (h2 : cb.stats.Requests < cb.maxRequests) :
    (Execute cb now false).1.state = StateOpen ∧
    (Execute cb now false).1.stats = ⟨0, 0, 0, 0, 0⟩ ∧
    (Execute cb now false).1.expiry = now + cb.timeout ∧
    (Execute cb now false).1.generation = (cb.generation + 1) % W64 ∧
    (Execute cb now false).2 = ExecResult.done false none := by
  have hcs : currentState cb now = cb := currentState_halfOpen cb now h1
  have h3 : ¬ cb.maxRequests ≤ cb.stats.Requests := by omega
  unfold Execute GetState Process HalfOpenNotOkAction
  simp [hcs, h1, h3, generate, genExpiry, Stats.clear]

/-- Witness for C6 at the sample Half-Open breaker, failing at time 9. -/
theorem C6_witness :
    (Execute sampleHalfOpenBreaker 9 false).1.state = StateOpen ∧
    (Execute sampleHalfOpenBreaker 9 false).1.stats = ⟨0, 0, 0, 0, 0⟩ ∧
    (Execute sampleHalfOpenBreaker 9 false).1.expiry = 9 + sampleHalfOpenBreaker.timeout ∧
    (Execute sampleHalfOpenBreaker 9 false).1.generation =
      (sampleHalfOpenBreaker.generation + 1) % W64 ∧
    (Execute sampleHalfOpenBreaker 9 false).2 = ExecResult.done false none :=
  C6_halfOpen_failure sampleHalfOpenBreaker 9 (by decide) (by decide)

/-- Counterexample to claim C5: on a Half-Open breaker with maxRequests 2
and a fresh window, the very first successful probe already moves the state
to Closed — the claim says the breaker stays Half-Open until the
maxRequests-th consecutive success — and the recorded counters are carried
into Closed rather than reset. -/
theorem C5_counterexample :
    (Execute sampleHalfOpenBreaker 1 true).1.state = StateClosed ∧
    StateClosed ≠ StateHalfOpen ∧
    (Execute sampleHalfOpenBreaker 1 true).1.stats = ⟨1, 1, 0, 1, 0⟩ := by
  decide

/-- Claim C5 (amended): while Half-Open, any admitted successful probe
transitions the breaker to Closed immediately (the FSM rule HalfOpen+Ok has
destination StateClosed unconditionally); the Stats window is reset by a
new generation only when that success brings consecutiveSuccesses to at
least maxRequests, and otherwise the recorded counters carry over into the
Closed state unreset. -/
theorem C5_halfOpen_success (cb : CircuitBreaker) (now : Nat)
    (h1 : cb.state = StateHalfOpen) (h2 : cb.stats.Requests < cb.maxRequests) :
    (Execute cb now true).1.state = StateClosed ∧
    (Execute cb now true).2 = ExecResult.done true none ∧
    (cb.maxRequests ≤ (cb.stats.ConsecutiveSuccesses + 1) % W →
      (Execute cb now true).1.stats = ⟨0, 0, 0, 0, 0⟩) ∧
    ((cb.stats.ConsecutiveSuccesses + 1) % W < cb.maxRequests →
      (Execute cb now true).1.stats = cb.stats.request.success) := by
  have hcs : currentState cb now = cb := currentState_halfOpen cb now h1
  have h3 : ¬ cb.maxRequests ≤ cb.stats.Requests := by omega
  by_cases hmr : cb.maxRequests ≤ (cb.stats.ConsecutiveSuccesses + 1) % W
  · refine ⟨?_, ?_, fun _ => ?_, fun hlt => absurd hmr (by omega)⟩
    · simp [Execute, GetState, Process, HalfOpenOkAction, hcs, h1, h3, hmr,
        Stats.request, Stats.success, generate]
    · simp [Execute, GetState, Process, HalfOpenOkAction, hcs, h1, h3, hmr,
        Stats.request, Stats.success, generate]
    · simp [Execute, GetState, Process, HalfOpenOkAction, hcs, h1, h3, hmr,
        Stats.request, Stats.success, generate, Stats.clear]
  · refine ⟨?_, ?_, fun hge => absurd hge hmr, fun _ => ?_⟩
    · simp [Execute, GetState, Process, HalfOpenOkAction, hcs, h1, h3, hmr,
        Stats.request, Stats.success]
    · simp [Execute, GetState, Process, HalfOpenOkAction, hcs, h1, h3, hmr,
        Stats.request, Stats.success]
    · simp [Execute, GetState, Process, HalfOpenOkAction, hcs, h1, h3, hmr,
        Stats.request, Stats.success]

/-- Witness for the amended C5, exercising both the carry-over case
(first success with maxRequests 2) and the reset case (second consecutive
success reaching maxRequests). -/
theorem C5_witness :
    ((Execute sampleHalfOpenBreaker 1 true).1.state = StateClosed ∧
      (Execute sampleHalfOpenBreaker 1 true).1.stats =
        sampleHalfOpenBreaker.stats.request.success) ∧
    (Execute ⟨"b", 2, 0, 4, defaultReadyToTrip, 1, ⟨1, 1, 0, 1, 0⟩, 0,
        PState.StateHalfOpen⟩ 2 true).1.stats = ⟨0, 0, 0, 0, 0⟩ :=
  ⟨⟨(C5_halfOpen_success sampleHalfOpenBreaker 1 (by decide) (by decide)).1,
    (C5_halfOpen_success sampleHalfOpenBreaker 1 (by decide) (by decide)).2.2.2 (by decide)⟩,
   (C5_halfOpen_success _ 2 (by decide) (by decide)).2.2.1 (by decide)⟩

/-- Claim C1 (code bug): a fresh breaker with the default settings records
one failed call and the state is already Open, although defaultReadyToTrip
evaluated on the stats snapshot taken immediately after recording that
failure returns false (ConsecutiveFailures is 1, not more than 5).  The
FSM rule added in init for (StateClosed, NotOk) has destination StateOpen
unconditionally; readyToTrip only decides whether a new generation starts.
The claim and the ReadyToTrip documentation in soteria.go lines 80-83 say
the breaker should have remained Closed. -/
theorem C1_trips_without_readyToTrip :
    (Execute (New ⟨"b", 0, 0, 0, none⟩ 0) 1 false).1.state = StateOpen ∧
    StateOpen ≠ StateClosed ∧
    defaultReadyToTrip (Execute (New ⟨"b", 0, 0, 0, none⟩ 0) 1 false).1.stats = false ∧
    (Execute (New ⟨"b", 0, 0, 0, none⟩ 0) 1 false).1.stats = ⟨1, 0, 1, 0, 1⟩ := by
  decide

/-- Claim C2 (code bug): sampleOpenBreaker is Open with expiry 5; the next
Execute call at time 10 (past expiry) runs the refresh step, which clears
the stats and re-arms expiry to 10 + timeout = 14 but leaves the state
Open, so the call is rejected with ErrOpenState instead of the promotion
to Half-Open that the claim (and the Timeout documentation in soteria.go
lines 76-78) describes: `generate` never changes the FSM state and no rule
maps Open to Half-Open. -/
theorem C2_no_halfOpen_promotion :
    sampleOpenBreaker.state = StateOpen ∧
    sampleOpenBreaker.expiry = 5 ∧
    (Execute sampleOpenBreaker 10 true).1.state = StateOpen ∧
    StateOpen ≠ StateHalfOpen ∧
    (Execute sampleOpenBreaker 10 true).1.expiry = 14 ∧
    (Execute sampleOpenBreaker 10 true).2 = ExecResult.rejected Err.ErrOpenState := by
  decide

/-- Claim C9 (code bug): in the lock-discipline model read off the source,
every shared-field access of `State` is inside the critical section, and
the guarded operation of `Execute` runs outside the lock, but `Execute`
performs shared-field accesses (its refresh, both admission checks and
stats.request) with the mutex not held — the method body never locks, only
the transition actions do. -/
theorem C9_execute_unlocked :
    accessesLocked 0 executeEvents = false ∧
    accessesLocked 0 stateEvents = true ∧
    opOutsideLock 0 executeEvents = true := by
  decide

theorem statsInv_zero : StatsInv ⟨0, 0, 0, 0, 0⟩ :=
  ⟨by decide, by decide, by decide, by decide, by decide, by decide, Or.inl rfl⟩

theorem statsInv_request_success (s : Stats) (h : StatsInv s) :
    StatsInv s.request.success := by
  obtain ⟨h1, h2, h3, h4, h5, h6, h7⟩ := h
  simp only [StatsInv, Stats.request, Stats.success, W] at *
  refine ⟨by omega, by omega, by omega, by omega, by omega, ?_, by simp⟩
  rw [h6, Nat.mod_add_mod, Nat.mod_add_mod]
  congr 1
  omega

theorem statsInv_request_failure (s : Stats) (h : StatsInv s) :
    StatsInv s.request.failure := by
  obtain ⟨h1, h2, h3, h4, h5, h6, h7⟩ := h
  simp only [StatsInv, Stats.request, Stats.failure, W] at *
  refine ⟨by omega, by omega, by omega, by omega, by omega, ?_, by simp⟩
  rw [h6, Nat.mod_add_mod, Nat.add_mod_mod]
  congr 1

theorem statsInv_currentState (cb : CircuitBreaker) (now : Nat)
    (h : StatsInv cb.stats) : StatsInv (currentState cb now).stats := by
  unfold currentState
  split
  · split
    · exact statsInv_zero
    · exact h
  · split
    · split
      · exact statsInv_zero
      · exact h
    · exact h

theorem statsInv_Execute (cb : CircuitBreaker) (now : Nat) (opOk : Bool)
    (h : StatsInv cb.stats) : StatsInv (Execute cb now opOk).1.stats := by
  have h1 : StatsInv (currentState cb now).stats := statsInv_currentState cb now h
  unfold Execute GetState
  obtain ⟨cb1, hg⟩ : ∃ x, currentState cb now = x := ⟨_, rfl⟩
  rw [hg] at h1 ⊢
  dsimp only
  split
  · exact h1
  · rename_i hno
    split
    · exact h1
    · have hrs : StatsInv cb1.stats.request.success := statsInv_request_success _ h1
      have hrf : StatsInv cb1.stats.request.failure := statsInv_request_failure _ h1
      cases hst : cb1.state with
      | StateOpen => exact absurd hst hno
      | StateClosed =>
          cases opOk with
          | true =>
              simp only [Process, ClosedOkAction, hst]
              simp
              exact hrs
          | false =>
              simp only [Process, ClosedNotOkAction, hst]
              simp
              split
              · exact statsInv_zero
              · exact hrf
      | StateHalfOpen =>
          cases opOk with
          | true =>
              simp only [Process, HalfOpenOkAction, hst]
              simp
              split
              · exact statsInv_zero
              · exact hrs
          | false =>
              simp only [Process, HalfOpenNotOkAction, hst]
              simp
              exact statsInv_zero

theorem statsInv_runCall (cb : CircuitBreaker) (c : Call)
    (h : StatsInv cb.stats) : StatsInv (runCall cb c).stats := by
  cases c with
  | exec now opOk => exact statsInv_Execute cb now opOk h
  | state now => exact statsInv_currentState cb now h

theorem statsInv_run (cb : CircuitBreaker) (calls : List Call)
    (h : StatsInv cb.stats) : StatsInv (run cb calls).stats := by
  induction calls generalizing cb with
  | nil => exact h
  | cons c cs ih =>
      show StatsInv (run (runCall cb c) cs).stats
      exact ih _ (statsInv_runCall cb c h)

theorem statsInv_New (s : Settings) (t : Nat) : StatsInv (New s t).stats :=
  statsInv_zero

/-- Counterexample to claim C7: sampleOpenBreaker is reachable (it is by
definition the result of one Execute call on a newly built breaker), yet
both of its consecutive counters are zero, because the generation reset
that accompanied its Closed-to-Open trip cleared them; the same already
holds for the freshly built breaker.  This refutes the claim's requirement
that exactly one of the two counters is non-zero in every reachable
state. -/
theorem C7_counterexample :
    (run (New sampleTripSettings 0) [Call.exec 1 false]).stats.ConsecutiveSuccesses = 0 ∧
    (run (New sampleTripSettings 0) [Call.exec 1 false]).stats.ConsecutiveFailures = 0 := by
  decide

/-- Claim C7 (amended): in every reachable state, Requests equals
TotalSuccesses + TotalFailures modulo 2^32 (the uint32 counters wrap, so
plain `TotalSuccesses + TotalFailures <= Requests` can fail only across a
wraparound; below 2^32 recorded outcomes per generation the mod equation
is the claimed equality), and at most one of ConsecutiveSuccesses and
ConsecutiveFailures is non-zero — not exactly one, since every fresh
generation has both at zero. -/
theorem C7_stats_invariant (cb : CircuitBreaker) (h : Reachable cb) :
    cb.stats.Requests = (cb.stats.TotalSuccesses + cb.stats.TotalFailures) % W ∧
    (cb.stats.ConsecutiveSuccesses = 0 ∨ cb.stats.ConsecutiveFailures = 0) := by
  obtain ⟨s, t, calls, rfl⟩ := h
  have hi := statsInv_run (New s t) calls (statsInv_New s t)
  exact ⟨hi.2.2.2.2.2.1, hi.2.2.2.2.2.2⟩

/-- Witness for the amended C7 at a breaker that has recorded one success. -/
theorem C7_witness :
    (run (New ⟨"w", 0, 0, 0, none⟩ 0) [Call.exec 1 true]).stats.Requests =
      ((run (New ⟨"w", 0, 0, 0, none⟩ 0) [Call.exec 1 true]).stats.TotalSuccesses +
       (run (New ⟨"w", 0, 0, 0, none⟩ 0) [Call.exec 1 true]).stats.TotalFailures) % W ∧
    ((run (New ⟨"w", 0, 0, 0, none⟩ 0) [Call.exec 1 true]).stats.ConsecutiveSuccesses = 0 ∨
     (run (New ⟨"w", 0, 0, 0, none⟩ 0) [Call.exec 1 true]).stats.ConsecutiveFailures = 0) :=
  C7_stats_invariant _ ⟨⟨"w", 0, 0, 0, none⟩, 0, [Call.exec 1 true], rfl⟩

theorem closedExpiryInv_generate (cb : CircuitBreaker) (now : Nat)
    (h : ClosedExpiryInv cb) : ClosedExpiryInv (generate cb now) := by
  refine ⟨h.1, fun hi hc => ?_⟩
  have hc2 : cb.state = StateClosed := hc
  have hi2 : cb.interval = 0 := hi
  show genExpiry cb now = 0
  simp [genExpiry, hc2, hi2]

theorem closedExpiryInv_currentState (cb : CircuitBreaker) (now : Nat)
    (h : ClosedExpiryInv cb) : ClosedExpiryInv (currentState cb now) := by
  unfold currentState
  split
  · split
    · exact closedExpiryInv_generate cb now h
    · exact h
  · split
    · split
      · exact closedExpiryInv_generate cb now h
      · exact h
    · exact h

theorem closedExpiryInv_Execute (cb : CircuitBreaker) (now : Nat) (opOk : Bool)
    (h : ClosedExpiryInv cb) : ClosedExpiryInv (Execute cb now opOk).1 := by
  have h1 : ClosedExpiryInv (currentState cb now) :=
    closedExpiryInv_currentState cb now h
  unfold Execute GetState
  obtain ⟨cb1, hg⟩ : ∃ x, currentState cb now = x := ⟨_, rfl⟩
  rw [hg] at h1 ⊢
  dsimp only
  split
  · exact h1
  · rename_i hno
    split
    · exact h1
    · have hcl : cb1.state = StateClosed := by
        cases hst : cb1.state with
        | StateClosed => rfl
        | StateHalfOpen => exact absurd hst h1.1
        | StateOpen => exact absurd hst hno
      cases opOk with
      | true =>
          simp only [Process, ClosedOkAction, hcl]
          simp only [and_true, and_false, if_true, if_false, reduceCtorEq,
            ite_true, ite_false]
          exact ⟨fun hh => PState.noConfusion (hh : StateClosed = StateHalfOpen),
            fun hi hc => h1.2 hi hcl⟩
      | false =>
          simp only [Process, ClosedNotOkAction, hcl]
          simp only [and_true, and_false, if_true, if_false, reduceCtorEq,
            ite_true, ite_false]
          split
          · exact ⟨fun hh => PState.noConfusion (hh : StateOpen = StateHalfOpen),
              fun hi hc => PState.noConfusion (hc : StateOpen = StateClosed)⟩
          · exact ⟨fun hh => PState.noConfusion (hh : StateOpen = StateHalfOpen),
              fun hi hc => PState.noConfusion (hc : StateOpen = StateClosed)⟩

theorem closedExpiryInv_runCall (cb : CircuitBreaker) (c : Call)
    (h : ClosedExpiryInv cb) : ClosedExpiryInv (runCall cb c) := by
  cases c with
  | exec now opOk => exact closedExpiryInv_Execute cb now opOk h
  | state now => exact closedExpiryInv_currentState cb now h

theorem closedExpiryInv_run (cb : CircuitBreaker) (calls : List Call)
    (h : ClosedExpiryInv cb) : ClosedExpiryInv (run cb calls) := by
  induction calls generalizing cb with
  | nil => exact h
  | cons c cs ih =>
      show ClosedExpiryInv (run (runCall cb c) cs)
      exact ih _ (closedExpiryInv_runCall cb c h)

theorem closedExpiryInv_New (s : Settings) (t : Nat) :
    ClosedExpiryInv (New s t) := by
  refine ⟨fun hh => PState.noConfusion (hh : StateClosed = StateHalfOpen),
    fun hi _ => ?_⟩
  have hi2 : s.Interval = 0 := hi
  simp [New, generate, genExpiry, hi2]

theorem closedExpiryInv_reachable (cb : CircuitBreaker) (h : Reachable cb) :
    ClosedExpiryInv cb := by
  obtain ⟨s, t, calls, rfl⟩ := h
  exact closedExpiryInv_run (New s t) calls (closedExpiryInv_New s t)

/-- Counterexample to claim C8: sampleClosedIntervalBreaker is a reachable
Closed breaker with interval 3, expiry 5 and non-zero counters; the refresh
step of a call at time 5 — where now equals expiry, so now >= expiry as the
claim requires — leaves the breaker completely unchanged, because the code
fires the rollover only when `cb.expiry.Before(now)` holds strictly. -/
theorem C8_counterexample :
    sampleClosedIntervalBreaker.state = StateClosed ∧
    sampleClosedIntervalBreaker.interval = 3 ∧
    sampleClosedIntervalBreaker.expiry = 5 ∧
    sampleClosedIntervalBreaker.stats = ⟨1, 1, 0, 1, 0⟩ ∧
    currentState sampleClosedIntervalBreaker 5 = sampleClosedIntervalBreaker :=
  ⟨rfl, rfl, rfl, rfl, rfl⟩

/-- Claim C8 (amended): when the breaker is Closed with interval > 0 and a
set expiry, the state-refresh step of the next public call whose current
time is strictly after expiry (now > expiry, not now >= expiry) resets all
Stats counters to zero and sets the new expiry to now + interval, leaving
the state Closed; with interval = 0 a reachable Closed breaker always has
the zero expiry, so the refresh step never touches it and the counters are
never auto-reset. -/
theorem C8_interval_rollover (cb : CircuitBreaker) (h : Reachable cb) (now : Nat) :
    (cb.state = StateClosed → cb.interval ≠ 0 → cb.expiry ≠ 0 → cb.expiry < now →
      (currentState cb now).stats = ⟨0, 0, 0, 0, 0⟩ ∧
      (currentState cb now).expiry = now + cb.interval ∧
      (currentState cb now).state = StateClosed) ∧
    (cb.state = StateClosed → cb.interval = 0 → currentState cb now = cb) := by
  constructor
  · intro hc hi he hlt
    have hgen : currentState cb now = generate cb now := by
      unfold currentState
      simp [hc, he, hlt]
    rw [hgen]
    refine ⟨rfl, ?_, hc⟩
    show genExpiry cb now = now + cb.interval
    simp [genExpiry, hc, hi]
  · intro hc hi
    have hz : cb.expiry = 0 := (closedExpiryInv_reachable cb h).2 hi hc
    unfold currentState
    simp [hc, hz]

/-- Witness for the amended C8: the rollover fires on
sampleClosedIntervalBreaker at time 6 (strictly past its expiry 5), and a
zero-interval breaker is untouched by the refresh at any time. -/
theorem C8_witness :
    ((currentState sampleClosedIntervalBreaker 6).stats = ⟨0, 0, 0, 0, 0⟩ ∧
     (currentState sampleClosedIntervalBreaker 6).expiry =
       6 + sampleClosedIntervalBreaker.interval ∧
     (currentState sampleClosedIntervalBreaker 6).state = StateClosed) ∧
    currentState (New ⟨"w2", 0, 0, 0, none⟩ 0) 99 = New ⟨"w2", 0, 0, 0, none⟩ 0 :=
  ⟨(C8_interval_rollover sampleClosedIntervalBreaker
      ⟨⟨"b", 0, 3, 0, none⟩, 2, [Call.exec 4 true], rfl⟩ 6).1
      (by decide) (by decide) (by decide) (by decide),
   (C8_interval_rollover (New ⟨"w2", 0, 0, 0, none⟩ 0)
      ⟨⟨"w2", 0, 0, 0, none⟩, 0, [], rfl⟩ 99).2 (by decide) (by decide)⟩

/-- Closed-form run of k consecutive successful calls on a Closed breaker
with interval 0: every call increments Requests, TotalSuccesses and
ConsecutiveSuccesses together, each modulo 2^32. -/
theorem closedSuccessRun (k m : Nat) :
    run ⟨"s", 1, 0, 4, defaultReadyToTrip, 1, ⟨m % W, m % W, 0, m % W, 0⟩, 0,
        StateClosed⟩
      (List.replicate k (Call.exec 1 true)) =
    ⟨"s", 1, 0, 4, defaultReadyToTrip, 1,
      ⟨(m + k) % W, (m + k) % W, 0, (m + k) % W, 0⟩, 0, StateClosed⟩ := by
  induction k generalizing m with
  | zero => simp [run]
  | succ k ih =>
      have hstep :
          runCall ⟨"s", 1, 0, 4, defaultReadyToTrip, 1,
              ⟨m % W, m % W, 0, m % W, 0⟩, 0, StateClosed⟩ (Call.exec 1 true) =
          ⟨"s", 1, 0, 4, defaultReadyToTrip, 1,
            ⟨(m + 1) % W, (m + 1) % W, 0, (m + 1) % W, 0⟩, 0, StateClosed⟩ := by
        show (Execute _ 1 true).1 = _
        unfold Execute currentState GetState Process ClosedOkAction
        simp [Stats.request, Stats.success, Nat.mod_add_mod]
      rw [run, List.replicate_succ, List.foldl_cons, hstep]
      have harun := ih (m + 1)
      rw [run] at harun
      have harith : m + 1 + k = m + (k + 1) := by omega
      rw [harith] at harun
      exact harun

/-- The uint32 counters wrap: after 2^32 - 1 successes and one failure in
a single Closed generation, Requests has wrapped to 0 while TotalSuccesses
and TotalFailures hold 2^32 - 1 and 1, so the plain inequality
`TotalSuccesses + TotalFailures <= Requests` fails; only the modulo-2^32
equation proved for claim C7 survives wraparound. -/
theorem uint32_wrap_defeats_le :
    ((run ⟨"s", 1, 0, 4, defaultReadyToTrip, 1, ⟨0, 0, 0, 0, 0⟩, 0, StateClosed⟩
        (List.replicate (W - 1) (Call.exec 1 true) ++ [Call.exec 1 false])).stats.Requests
      = 0) ∧
    ¬ ((run ⟨"s", 1, 0, 4, defaultReadyToTrip, 1, ⟨0, 0, 0, 0, 0⟩, 0, StateClosed⟩
          (List.replicate (W - 1) (Call.exec 1 true) ++
           [Call.exec 1 false])).stats.TotalSuccesses +
       (run ⟨"s", 1, 0, 4, defaultReadyToTrip, 1, ⟨0, 0, 0, 0, 0⟩, 0, StateClosed⟩
          (List.replicate (W - 1) (Call.exec 1 true) ++
           [Call.exec 1 false])).stats.TotalFailures ≤
       (run ⟨"s", 1, 0, 4, defaultReadyToTrip, 1, ⟨0, 0, 0, 0, 0⟩, 0, StateClosed⟩
          (List.replicate (W - 1) (Call.exec 1 true) ++
           [Call.exec 1 false])).stats.Requests) := by
  have h1 := closedSuccessRun (W - 1) 0
  simp only [Nat.zero_mod, Nat.zero_add] at h1
  have h2 : run ⟨"s", 1, 0, 4, defaultReadyToTrip, 1, ⟨0, 0, 0, 0, 0⟩, 0, StateClosed⟩
        (List.replicate (W - 1) (Call.exec 1 true) ++ [Call.exec 1 false]) =
      runCall (run ⟨"s", 1, 0, 4, defaultReadyToTrip, 1, ⟨0, 0, 0, 0, 0⟩, 0, StateClosed⟩
        (List.replicate (W - 1) (Call.exec 1 true))) (Call.exec 1 false) := by
    rw [run, run, List.foldl_append, List.foldl_cons, List.foldl_nil]
  rw [h2, h1]
  decide

end soteria
